import Mathlib

/-!
Verification of `estonia_bike_route` (scripts for chunked ORS matrix
acquisition, OR-Tools TSP solving, DMS coordinate parsing and GPX/KML export).

Each Python function used by the claims is shallowly embedded as an
executable Lean definition; machine floats that only ever hold exact
decimal data are modelled by `ℚ`.
-/

namespace EstoniaBikeRoute

/-! ## Chunk planning (`scripts/compute_distance_matrix.py`, `main`)

The script computes `chunk_size = floor(limit / N)` (the source hardcodes
`limit = 3500`; we keep it as a parameter `maxRoutes`), raises `ValueError`
when `chunk_size < 1`, and otherwise walks
`start_idx = 0; while start_idx < N: end_idx = min(start_idx + chunk_size, N); ...; start_idx = end_idx`,
one chunk per iteration with `sources = range(start_idx, end_idx)` and
`destinations = range(N)`. -/

/-- One sub-request of the matrix query: the payload's `"sources"` list and
`"destinations"` list (`compute_distance_matrix.py`, lines 71-76). -/
structure RoutingChunk where
  sources : List Nat
  dests : List Nat
deriving DecidableEq, Repr

/-- The planning failure raised at `compute_distance_matrix.py:51`
(`ValueError`, the spec's `PlanningInfeasible`). -/
inductive PlanError where
  | PlanningInfeasible
deriving DecidableEq, Repr

/-- The chunking `while` loop of `compute_distance_matrix.py` (lines 63-103),
returning the list of `(start_idx, end_idx)` half-open source blocks in the
order they are requested. -/
def planGo (n size start : Nat) : List (Nat × Nat) :=
  if hc : size = 0 ∨ n ≤ start then []
  else (start, min (start + size) n) :: planGo n size (min (start + size) n)
termination_by n - start
decreasing_by
  push_neg at hc
  have h1 : start < min (start + size) n := by omega
  exact Nat.sub_lt_sub_left (by omega) h1

/-- The planner `ChunkPlanner.plan`: chunk-size computation, infeasibility check and the
chunking loop of `compute_distance_matrix.py` (lines 45-76), with each block
materialised as its request payload (`sources = range(start, end)`,
`destinations = range(N)`). -/
def plan (numPoints maxRoutes : Nat) : Except PlanError (List RoutingChunk) :=
  let chunkSize := maxRoutes / numPoints
  if chunkSize < 1 then Except.error PlanError.PlanningInfeasible
  else Except.ok ((planGo numPoints chunkSize 0).map
    (fun b => ⟨List.range' b.1 (b.2 - b.1), List.range numPoints⟩))

theorem planGo_join (n size : Nat) (hsize : 1 ≤ size) :
    ∀ k start, n - start ≤ k →
      ((planGo n size start).map (fun b => List.range' b.1 (b.2 - b.1))).flatten
        = List.range' start (n - start) := by
  intro k
  induction k with
  | zero =>
    intro start h
    rw [planGo]
    have hns : n ≤ start := by omega
    simp [hns]
  | succ k ih =>
    intro start h
    rw [planGo]
    by_cases hns : n ≤ start
    · simp [hns]
    · have hcond : ¬(size = 0 ∨ n ≤ start) := by omega
      simp only [hcond, dite_false, List.map_cons, List.flatten_cons]
      have hlt : start < min (start + size) n := by omega
      have hrec := ih (min (start + size) n) (by omega)
      rw [hrec]
      have hstep : start + (min (start + size) n - start) = min (start + size) n := by
        omega
      calc List.range' start (min (start + size) n - start)
          ++ List.range' (min (start + size) n) (n - min (start + size) n)
        = List.range' start (min (start + size) n - start)
          ++ List.range' (start + (min (start + size) n - start))
              (n - min (start + size) n) := by rw [hstep]
      _ = List.range' start ((n - min (start + size) n)
              + (min (start + size) n - start)) := List.range'_append_1 _ _ _
      _ = List.range' start (n - start) := by
            congr 1
            omega

theorem planGo_blocks (n size : Nat) :
    ∀ k start, n - start ≤ k →
      ∀ b ∈ planGo n size start, b.1 < b.2 ∧ b.2 ≤ n := by
  intro k
  induction k with
  | zero =>
    intro start h b hb
    rw [planGo] at hb
    have hns : n ≤ start := by omega
    simp [hns] at hb
  | succ k ih =>
    intro start h b hb
    rw [planGo] at hb
    by_cases hns : n ≤ start
    · simp [hns] at hb
    · by_cases hsz : size = 0
      · simp [hsz] at hb
      · have hcond : ¬(size = 0 ∨ n ≤ start) := by omega
        simp only [hcond, dite_false, List.mem_cons] at hb
        rcases hb with hb | hb
        · subst hb
          constructor
          · simp
            omega
          · simp
        · exact ih (min (start + size) n) (by omega) b hb

/-- C1: for `num_points ≥ 1` and `max_routes_per_request ≥ num_points`,
the chunk plan succeeds and its source blocks are contiguous nonempty
`range'` intervals whose in-order concatenation is exactly `[0, num_points)`
(hence non-overlapping, ascending and an exact partition), and every chunk's
destination list is the full range `[0, num_points)`. -/
theorem chunk_plan_partitions (n m : Nat) (h1 : 1 ≤ n) (h2 : n ≤ m) :
    ∃ cs, plan n m = Except.ok cs
      ∧ (cs.map RoutingChunk.sources).flatten = List.range n
      ∧ (∀ c ∈ cs, c.dests = List.range n)
      ∧ (∀ c ∈ cs, ∃ s l, c.sources = List.range' s l ∧ 1 ≤ l) := by
  have hsize : 1 ≤ m / n := (Nat.one_le_div_iff (by omega)).2 h2
  refine ⟨(planGo n (m / n) 0).map
    (fun b => ⟨List.range' b.1 (b.2 - b.1), List.range n⟩), ?_, ?_, ?_, ?_⟩
  · unfold plan
    have : ¬(m / n < 1) := by omega
    simp [this]
  · rw [List.map_map]
    have := planGo_join n (m / n) hsize n 0 (by omega)
    simp only [Nat.sub_zero] at this
    rw [show ((fun c : RoutingChunk => c.sources) ∘
        (fun b : Nat × Nat => (⟨List.range' b.1 (b.2 - b.1), List.range n⟩ : RoutingChunk)))
      = (fun b : Nat × Nat => List.range' b.1 (b.2 - b.1)) from rfl]
    rw [this, List.range_eq_range']
  · intro c hc
    simp only [List.mem_map] at hc
    obtain ⟨b, _, hb⟩ := hc
    rw [← hb]
  · intro c hc
    simp only [List.mem_map] at hc
    obtain ⟨b, hbmem, hb⟩ := hc
    have hblk := planGo_blocks n (m / n) n 0 (by omega) b hbmem
    exact ⟨b.1, b.2 - b.1, by rw [← hb], by omega⟩

theorem chunk_plan_partitions_witness :
    ∃ cs, plan 10 25 = Except.ok cs
      ∧ (cs.map RoutingChunk.sources).flatten = List.range 10
      ∧ (∀ c ∈ cs, c.dests = List.range 10)
      ∧ (∀ c ∈ cs, ∃ s l, c.sources = List.range' s l ∧ 1 ≤ l) :=
  chunk_plan_partitions 10 25 (by decide) (by decide)

/-- C5: when `max_routes_per_request < num_points` (so
`chunk_size = floor(max/num) = 0 < 1`), planning fails with
`PlanningInfeasible` and no chunks are produced. -/
theorem plan_infeasible (n m : Nat) (h1 : 1 ≤ n) (h2 : m < n) :
    plan n m = Except.error PlanError.PlanningInfeasible := by
  unfold plan
  have hz : m / n = 0 := Nat.div_eq_of_lt h2
  simp [hz]

theorem plan_infeasible_witness :
    plan 10 5 = Except.error PlanError.PlanningInfeasible :=
  plan_infeasible 10 5 (by decide) (by decide)

/-! ## Matrix assembly (`scripts/compute_distance_matrix.py`, lines 58-103)

The script prepares `N×N` zero matrices and, per chunk, copies sub-matrix
row `i` into full-matrix row `start_idx + i`, all `N` columns
(`dist_matrix[global_row][j] = sub_dist[i][j]`); matrices are modelled as
total maps `Nat → Nat → ℚ` and the provider's per-chunk sub-matrices as a
family `resp` indexed by the chunk's start row. -/

/-- The merge double-loop of `compute_distance_matrix.py` lines 96-100 for one
chunk: rows `[s, s+len)`, columns `[0, n)` are overwritten with the chunk's
sub-matrix (`sub i j` = sub-matrix row `i`, column `j`). -/
def mergeChunk (n : Nat) (sub : Nat → Nat → ℚ) (s len : Nat)
    (M : Nat → Nat → ℚ) : Nat → Nat → ℚ :=
  fun r c => if s ≤ r ∧ r < s + len ∧ c < n then sub (r - s) c else M r c

/-- The per-chunk merge iteration of the `while` loop (success path only):
fold the merge over the planned blocks in order. `resp s i j` is the
provider's sub-matrix entry `(i, j)` for the chunk starting at source `s`. -/
def assembleRows (n : Nat) (resp : Nat → Nat → Nat → ℚ)
    (blocks : List (Nat × Nat)) (M : Nat → Nat → ℚ) : Nat → Nat → ℚ :=
  match blocks with
  | [] => M
  | b :: bs => assembleRows n resp bs (mergeChunk n (resp b.1) b.1 (b.2 - b.1) M)

/-- How many planned chunks write to row `r` (each chunk writes every cell of
its source rows exactly once, so this is the per-cell write count in row `r`). -/
def writesTo (blocks : List (Nat × Nat)) (r : Nat) : Nat :=
  blocks.countP (fun b => decide (b.1 ≤ r ∧ r < b.2))

theorem planGo_blocks_lower (n size : Nat) :
    ∀ k start, n - start ≤ k →
      ∀ b ∈ planGo n size start, start ≤ b.1 := by
  intro k
  induction k with
  | zero =>
    intro start h b hb
    rw [planGo] at hb
    have hns : n ≤ start := by omega
    simp [hns] at hb
  | succ k ih =>
    intro start h b hb
    rw [planGo] at hb
    by_cases hns : n ≤ start
    · simp [hns] at hb
    · by_cases hsz : size = 0
      · simp [hsz] at hb
      · have hcond : ¬(size = 0 ∨ n ≤ start) := by omega
        simp only [hcond, dite_false, List.mem_cons] at hb
        rcases hb with hb | hb
        · subst hb
          simp
        · have := ih (min (start + size) n) (by omega) b hb
          omega

theorem assembleRows_untouched (n : Nat) (resp : Nat → Nat → Nat → ℚ)
    (blocks : List (Nat × Nat)) (M : Nat → Nat → ℚ) (r c : Nat)
    (h : ∀ b ∈ blocks, r < b.1) :
    assembleRows n resp blocks M r c = M r c := by
  induction blocks generalizing M with
  | nil => rfl
  | cons b bs ih =>
    have hb : r < b.1 := h b (by simp)
    rw [assembleRows, ih _ (fun x hx => h x (by simp [hx]))]
    unfold mergeChunk
    have : ¬(b.1 ≤ r ∧ r < b.1 + (b.2 - b.1) ∧ c < n) := by omega
    simp [this]

theorem assembleRows_cell (n size : Nat) (hsize : 1 ≤ size)
    (resp : Nat → Nat → Nat → ℚ) :
    ∀ k start, n - start ≤ k →
      ∀ r c, start ≤ r → r < n → c < n → ∀ M,
        (∃ s e, (s, e) ∈ planGo n size start ∧ s ≤ r ∧ r < e ∧
          assembleRows n resp (planGo n size start) M r c = resp s (r - s) c)
        ∧ writesTo (planGo n size start) r = 1 := by
  intro k
  induction k with
  | zero =>
    intro start h r c hsr hrn
    omega
  | succ k ih =>
    intro start h r c hsr hrn hcn M
    have hstart : start < n := by omega
    have hcond : ¬(size = 0 ∨ n ≤ start) := by omega
    rw [planGo]
    simp only [hcond, dite_false]
    set e' := min (start + size) n with he'
    have he'start : start < e' := by omega
    have he'n : e' ≤ n := by omega
    by_cases hre : r < e'
    · -- row r lives in the head chunk; later chunks start at ≥ e' > r
      have hlater : ∀ b ∈ planGo n size e', r < b.1 := by
        intro b hb
        have := planGo_blocks_lower n size n e' (by omega) b hb
        omega
      constructor
      · refine ⟨start, e', by simp, hsr, hre, ?_⟩
        rw [assembleRows, assembleRows_untouched n resp _ _ r c hlater]
        unfold mergeChunk
        have : start ≤ r ∧ r < start + (e' - start) ∧ c < n := by omega
        simp [this]
      · unfold writesTo
        rw [List.countP_cons]
        have h1 : decide (start ≤ r ∧ r < e') = true := by
          simp
          omega
        have h0 : (planGo n size e').countP (fun b => decide (b.1 ≤ r ∧ r < b.2)) = 0 := by
          rw [List.countP_eq_zero]
          intro b hb
          have := hlater b hb
          simp
          omega
        rw [h0, h1]
        simp
    · -- row r lives in a later chunk
      have hrec := ih e' (by omega) r c (by omega) hrn hcn
        (mergeChunk n (resp start) start (e' - start) M)
      obtain ⟨⟨s, e, hmem, hs, he, hval⟩, hcount⟩ := hrec
      constructor
      · exact ⟨s, e, by simp [hmem], hs, he, by rw [assembleRows]; exact hval⟩
      · unfold writesTo
        rw [List.countP_cons]
        have h1 : decide (start ≤ r ∧ r < e') = false := by
          simp
          omega
        rw [h1]
        simpa [writesTo] using hcount

/-- C2: with a feasible plan (`1 ≤ n ≤ m`), assembling the chunk responses
over the planned blocks writes every cell `(r, c)` of the `n × n` matrix
exactly once: the final value at `(r, c)` is sub-matrix row `r - s`, column
`c` of the unique chunk `[s, e)` containing `r` (no aggregation), and the
number of chunks writing to the cell is exactly 1.  Instantiating `resp`
with the provider's distance (resp. duration) sub-matrices gives the claim
for both the distance and the duration matrix. -/
theorem assemble_each_cell_once (n m : Nat) (h1 : 1 ≤ n) (h2 : n ≤ m)
    (resp : Nat → Nat → Nat → ℚ) (M0 : Nat → Nat → ℚ) (r c : Nat)
    (hr : r < n) (hc : c < n) :
    (∃ s e, (s, e) ∈ planGo n (m / n) 0 ∧ s ≤ r ∧ r < e ∧
      assembleRows n resp (planGo n (m / n) 0) M0 r c = resp s (r - s) c)
    ∧ writesTo (planGo n (m / n) 0) r = 1 := by
  have hsize : 1 ≤ m / n := (Nat.one_le_div_iff (by omega)).2 h2
  exact assembleRows_cell n (m / n) hsize resp n 0 (by omega) r c (by omega) hr hc M0

/-- A deterministic provider stub used to instantiate the assembly theorem. -/
def respStub (s i j : Nat) : ℚ := s + i + j

theorem assemble_each_cell_once_witness :
    (∃ s e, (s, e) ∈ planGo 10 (25 / 10) 0 ∧ s ≤ 5 ∧ 5 < e ∧
      assembleRows 10 respStub (planGo 10 (25 / 10) 0)
        (fun _ _ => 0) 5 7 = respStub s (5 - s) 7)
    ∧ writesTo (planGo 10 (25 / 10) 0) 5 = 1 :=
  assemble_each_cell_once 10 25 (by decide) (by decide)
    respStub (fun _ _ => 0) 5 7 (by decide) (by decide)

/-! ## Assembly failure handling (`compute_distance_matrix.py`, lines 84-114)

On a non-200 response the script raises
`Exception(f"ORS Matrix API error: \x7br.status_code\x7d, \x7br.text\x7d")`:
the exception payload is built from the response's status code and body text
only.  The HTTP exchange is modelled by `HttpResp` and the per-chunk loop
with failure by `assembleLoop`. -/

/-- A provider response for one chunk request: HTTP status, body text, and
(on success) the two sub-matrices keyed by local row and column. -/
structure HttpResp where
  status : Nat
  text : String
  distances : Nat → Nat → ℚ
  durations : Nat → Nat → ℚ

/-- The payload of the exception raised at `compute_distance_matrix.py:86`:
the response's status code and text (and nothing else). -/
structure OrsError where
  status : Nat
  text : String
deriving DecidableEq, Repr

/-- The chunk loop of `compute_distance_matrix.py` lines 63-103 with the
failure path: each planned block `(s, e)` is queried (`api s e`); a non-200
status raises immediately with the response's status and text, otherwise both
sub-matrices are merged and the loop continues.  Only after all chunks
succeed are the two matrices produced (lines 105-113). -/
def assembleLoop (n : Nat) (api : Nat → Nat → HttpResp)
    (blocks : List (Nat × Nat)) (dist dur : Nat → Nat → ℚ) :
    Except OrsError ((Nat → Nat → ℚ) × (Nat → Nat → ℚ)) :=
  match blocks with
  | [] => Except.ok (dist, dur)
  | b :: bs =>
    let resp := api b.1 b.2
    if resp.status ≠ 200 then Except.error ⟨resp.status, resp.text⟩
    else assembleLoop n api bs
      (mergeChunk n resp.distances b.1 (b.2 - b.1) dist)
      (mergeChunk n resp.durations b.1 (b.2 - b.1) dur)

/-- A provider stub that succeeds everywhere except on chunks starting at
`bad`, where it returns HTTP 500 with body `"Server Error"`. -/
def apiFailingAt (bad : Nat) : Nat → Nat → HttpResp :=
  fun s _ => if s = bad then ⟨500, "Server Error", fun _ _ => 0, fun _ _ => 0⟩
             else ⟨200, "OK", fun _ _ => 0, fun _ _ => 0⟩

/-- C6 counterexample: two assemblies whose failing chunks have different
source ranges — `[0, 2)` for the 4-point plan and `[3, 6)` for the 6-point
plan — abort with the *identical* error value `⟨500, "Server Error"⟩`, so the
raised error carries the provider's status and text but cannot carry the
failing chunk's source range (the range is only printed to stdout). -/
theorem assemble_error_lacks_range :
    planGo 4 2 0 = [(0, 2), (2, 4)]
    ∧ planGo 6 3 0 = [(0, 3), (3, 6)]
    ∧ assembleLoop 4 (apiFailingAt 0) (planGo 4 2 0) (fun _ _ => 0) (fun _ _ => 0)
        = Except.error ⟨500, "Server Error"⟩
    ∧ assembleLoop 6 (apiFailingAt 3) (planGo 6 3 0) (fun _ _ => 0) (fun _ _ => 0)
        = Except.error ⟨500, "Server Error"⟩ := by
  have h4 : planGo 4 2 0 = [(0, 2), (2, 4)] := by
    rw [planGo]
    norm_num
    rw [planGo]
    norm_num
    rw [planGo]
    norm_num
  have h6 : planGo 6 3 0 = [(0, 3), (3, 6)] := by
    rw [planGo]
    norm_num
    rw [planGo]
    norm_num
    rw [planGo]
    norm_num
  refine ⟨h4, h6, ?_, ?_⟩
  · rw [h4]
    rfl
  · rw [h6]
    rfl

/-- C6 amended: a non-success response from any single chunk query aborts the
whole assembly at the first failing chunk with an error carrying the
provider's status and body text (not the chunk's source range), and no matrix
output is produced — partial merges from prior successful chunks are
discarded (all-or-nothing). -/
theorem assemble_aborts_on_failure (n : Nat) (api : Nat → Nat → HttpResp)
    (bs1 bs2 : List (Nat × Nat)) (b : Nat × Nat)
    (dist dur : Nat → Nat → ℚ)
    (hok : ∀ x ∈ bs1, (api x.1 x.2).status = 200)
    (hbad : (api b.1 b.2).status ≠ 200) :
    assembleLoop n api (bs1 ++ b :: bs2) dist dur
      = Except.error ⟨(api b.1 b.2).status, (api b.1 b.2).text⟩ := by
  induction bs1 generalizing dist dur with
  | nil =>
    rw [List.nil_append, assembleLoop]
    simp [hbad]
  | cons x xs ih =>
    have hx : (api x.1 x.2).status = 200 := hok x (by simp)
    have hcond : ¬((api x.1 x.2).status ≠ 200) := by simp [hx]
    rw [List.cons_append, assembleLoop, if_neg hcond]
    exact ih _ _ (fun y hy => hok y (List.mem_cons_of_mem x hy))

theorem assemble_aborts_on_failure_witness :
    assembleLoop 6 (apiFailingAt 3) ([(0, 3)] ++ (3, 6) :: []) (fun _ _ => 0) (fun _ _ => 0)
      = Except.error ⟨(apiFailingAt 3 3 6).status, (apiFailingAt 3 3 6).text⟩ :=
  assemble_aborts_on_failure 6 (apiFailingAt 3) [(0, 3)] [] (3, 6)
    (fun _ _ => 0) (fun _ _ => 0) (by intro x hx; simp at hx; subst hx; rfl) (by decide)

/-! ## TSP request construction and decoding
(`scripts/multi_tsp_solutions.py`, `solve_tsp`; `scripts/tsp-or-tools.py`, `main`)

The external OR-Tools engine is a collaborator; its index manager and
assignment are modelled by the spec's tour-search capability contract:
node indices are their own solver indices, the vehicle's single end is the
extra solver index `n`, and `IndexToNode` maps that end index back to the
depot (single-depot constructor) or to the fixed end node (start/end
constructor).  An assignment is its `NextVar` successor function plus the
reported `ObjectiveValue`. -/

/-- The two `RoutingIndexManager` constructor shapes appearing in the
scripts: `RoutingIndexManager(n, 1, depot)` (single vehicle, start = end =
depot) and `RoutingIndexManager(n, 1, [start], [finish])`. -/
inductive ManagerCfg where
  | closedTour (n depot : Nat)
  | openPath (n start finish : Nat)
deriving DecidableEq, Repr

/-- The constructor selection of `solve_tsp`
(`multi_tsp_solutions.py` lines 45-57): `end_index = None` uses the
single-depot constructor, otherwise the `[start], [end]` constructor. -/
def solveTspManager (n startIndex : Nat) : Option Nat → ManagerCfg
  | none => ManagerCfg.closedTour n startIndex
  | some e => ManagerCfg.openPath n startIndex e

/-- The manager construction of `tsp-or-tools.py` `main` (line 46): although
the data model supplies an `end_index`, the call is the single-depot
constructor `RoutingIndexManager(num_cities, 1, start_index)`; `end_index`
never enters the manager. -/
def orToolsMainManager (n startIndex endIndex : Nat) : ManagerCfg :=
  ManagerCfg.closedTour n startIndex

/-- The call at `tsp-or-tools.py:65`:
`routing.AddDisjunction([manager.NodeToIndex(end_index)], 0)` — the node
list and the penalty `0` (a zero-penalty disjunction merely makes the node
optional; it does not constrain the route's final node). -/
def orToolsMainDisjunction (endIndex : Nat) : List Nat × Nat :=
  ([endIndex], 0)

/-- Model of `routing.Start(0)` under the manager model. -/
def managerStart : ManagerCfg → Nat
  | ManagerCfg.closedTour _ d => d
  | ManagerCfg.openPath _ s _ => s

/-- Model of `routing.IsEnd` under the manager model: the vehicle end is solver
index `n`. -/
def managerIsEnd : ManagerCfg → Nat → Bool
  | ManagerCfg.closedTour n _, i => i == n
  | ManagerCfg.openPath n _ _, i => i == n

/-- Model of `manager.IndexToNode` under the manager model: the end index maps back
to the depot (closed tour) or to the fixed end node (open path); every other
solver index is its own node. -/
def managerIndexToNode : ManagerCfg → Nat → Nat
  | ManagerCfg.closedTour n d, i => if i == n then d else i
  | ManagerCfg.openPath n _ e, i => if i == n then e else i

/-- The engine's assignment as consumed by the decode loop: the `NextVar`
successor function on solver indices and the reported `ObjectiveValue`. -/
structure EngineSol where
  next : Nat → Nat
  objective : Int

/-- The route-reconstruction loop of `solve_tsp`
(`multi_tsp_solutions.py` lines 88-93): starting from `routing.Start(0)`,
follow the assignment's successors, collecting each solver index until
`IsEnd`, then append the final index.  `fuel` bounds the walk (the Python
loop relies on the engine's assignment reaching the end). -/
def decodeWalk (isEnd : Nat → Bool) (next : Nat → Nat) : Nat → Nat → List Nat
  | idx, 0 => [idx]
  | idx, fuel + 1 =>
    if isEnd idx then [idx] else idx :: decodeWalk isEnd next (next idx) fuel

/-- The result of `solve_tsp` on a found solution
(`multi_tsp_solutions.py` lines 86-97): the walked solver indices translated
through `IndexToNode` (the loop appends `IndexToNode(index)` at each step,
which equals mapping the translation over the raw walk), paired with
`solution.ObjectiveValue()` returned verbatim as `total_distance`. -/
def solveTspDecode (cfg : ManagerCfg) (sol : EngineSol) (fuel : Nat) :
    List Nat × Int :=
  ((decodeWalk (managerIsEnd cfg) sol.next (managerStart cfg) fuel).map
      (managerIndexToNode cfg),
    sol.objective)

/-- Python `int()` on a rational cost (truncation toward zero), from the
transit callback `int(distance_matrix[from_node][to_node])`
(`multi_tsp_solutions.py:67`). -/
def pyInt (q : ℚ) : Int := if 0 ≤ q then ⌊q⌋ else -⌊-q⌋

/-- Sum of the integer-truncated matrix costs over consecutive pairs of a
route — what the engine's objective is made of under its contract. -/
def pathCost (M : Nat → Nat → ℚ) (route : List Nat) : Int :=
  ((route.zip route.tail).map (fun pr => pyInt (M pr.1 pr.2))).sum

/-- Untruncated sum of matrix costs over consecutive pairs of a route. -/
def pathCostQ (M : Nat → Nat → ℚ) (route : List Nat) : ℚ :=
  ((route.zip route.tail).map (fun pr => M pr.1 pr.2)).sum

theorem decodeWalk_head (isEnd : Nat → Bool) (next : Nat → Nat)
    (start fuel : Nat) :
    (decodeWalk isEnd next start fuel).head? = some start := by
  cases fuel with
  | zero => rfl
  | succ k =>
    rw [decodeWalk]
    by_cases h : isEnd start = true
    · simp [h]
    · simp [h]

/-- A 4-point symmetric toy matrix (distinct cities 5 apart, diagonal 0). -/
def cexMatrix : Nat → Nat → ℚ := fun i j => if i = j then 0 else 5

/-- C3 counterexample: the decoder returns `solution.ObjectiveValue()`
verbatim.  For the closed-tour request over 2 points with the unit
assignment `next i = i + 1` but a reported objective of `999`, `solve_tsp`
decodes the route `[0, 1, 0]` — whose matrix cost is `10` both truncated and
exact — yet reports `total_cost = 999`: the decoder does not recompute the
cost from the matrix, and the reported value differs from the recomputed
path cost by far more than any rounding tolerance. -/
theorem solver_trusts_engine_objective :
    (solveTspDecode (solveTspManager 2 0 none) ⟨fun i => i + 1, 999⟩ 2).1 = [0, 1, 0]
    ∧ (solveTspDecode (solveTspManager 2 0 none) ⟨fun i => i + 1, 999⟩ 2).2 = 999
    ∧ pathCost cexMatrix [0, 1, 0] = 10
    ∧ pathCostQ cexMatrix [0, 1, 0] = 10 := by
  refine ⟨rfl, rfl, by decide, ?_⟩
  norm_num [pathCostQ, cexMatrix]

/-- C3 amended: `total_cost` is the engine-reported objective taken verbatim
(no independent recomputation); consequently it equals the sum of the
integer-truncated matrix costs over consecutive pairs of the decoded route
precisely when the engine's reported objective satisfies that contract. -/
theorem total_cost_is_engine_objective (cfg : ManagerCfg) (sol : EngineSol)
    (fuel : Nat) (M : Nat → Nat → ℚ)
    (hengine : sol.objective = pathCost M (solveTspDecode cfg sol fuel).1) :
    (solveTspDecode cfg sol fuel).2 = sol.objective
    ∧ (solveTspDecode cfg sol fuel).2 = pathCost M (solveTspDecode cfg sol fuel).1 :=
  ⟨rfl, hengine⟩

theorem total_cost_is_engine_objective_witness :
    (solveTspDecode (solveTspManager 2 0 none) ⟨fun i => i + 1, 10⟩ 2).2
        = (⟨fun i => i + 1, 10⟩ : EngineSol).objective
    ∧ (solveTspDecode (solveTspManager 2 0 none) ⟨fun i => i + 1, 10⟩ 2).2
        = pathCost cexMatrix
            (solveTspDecode (solveTspManager 2 0 none) ⟨fun i => i + 1, 10⟩ 2).1 :=
  total_cost_is_engine_objective (solveTspManager 2 0 none)
    ⟨fun i => i + 1, 10⟩ 2 cexMatrix (by decide)

/-- C7: for a closed-tour solve (`end_index = None`), `solve_tsp` builds the
single-depot request with depot = `start_index`, and for any engine
assignment satisfying the tour-search contract (its walk visits every node
of `[0, n)` exactly once and then reaches the vehicle end index `n`), the
decoded route begins and ends at `start_index`, has length `n + 1`, and its
interior `ordered_indices[1:-1]` is a permutation of all other indices. -/
theorem closed_tour_route_shape (n depot fuel : Nat) (hd : depot < n)
    (sol : EngineSol) (p : List Nat)
    (hwalk : decodeWalk (managerIsEnd (solveTspManager n depot none)) sol.next
        (managerStart (solveTspManager n depot none)) fuel = p ++ [n])
    (hperm : p.Perm (List.range n)) :
    (solveTspDecode (solveTspManager n depot none) sol fuel).1.head? = some depot
    ∧ (solveTspDecode (solveTspManager n depot none) sol fuel).1.getLast? = some depot
    ∧ (solveTspDecode (solveTspManager n depot none) sol fuel).1.length = n + 1
    ∧ ((solveTspDecode (solveTspManager n depot none) sol fuel).1.drop 1).dropLast.Perm
        ((List.range n).erase depot) := by
  have hmapp : p.map (managerIndexToNode (solveTspManager n depot none)) = p := by
    have : ∀ x ∈ p, managerIndexToNode (solveTspManager n depot none) x = x := by
      intro x hx
      have hxn : x < n := by
        have : x ∈ List.range n := hperm.mem_iff.1 hx
        simpa using this
      show (if x == n then depot else x) = x
      have hne : (x == n) = false := by
        simp
        omega
      simp [hne]
    calc p.map (managerIndexToNode (solveTspManager n depot none))
        = p.map id := List.map_congr_left this
      _ = p := List.map_id p
  have hroute : (solveTspDecode (solveTspManager n depot none) sol fuel).1
      = p ++ [depot] := by
    show (decodeWalk (managerIsEnd (solveTspManager n depot none)) sol.next
        (managerStart (solveTspManager n depot none)) fuel).map
          (managerIndexToNode (solveTspManager n depot none)) = p ++ [depot]
    rw [hwalk, List.map_append, hmapp]
    congr 1
    show [if n == n then depot else n] = [depot]
    simp
  have hphead : p.head? = some depot := by
    have h1 := decodeWalk_head (managerIsEnd (solveTspManager n depot none))
      sol.next (managerStart (solveTspManager n depot none)) fuel
    rw [hwalk] at h1
    have h2 : (p ++ [n]).head? = some depot := h1
    cases p with
    | nil =>
      simp at h2
      omega
    | cons a as =>
      simp at h2
      simp [h2]
  have hpne : p ≠ [] := by
    intro hnil
    rw [hnil] at hphead
    simp at hphead
  refine ⟨?_, ?_, ?_, ?_⟩
  · rw [hroute]
    cases p with
    | nil => exact absurd rfl hpne
    | cons a as =>
      simp at hphead
      simp [hphead]
  · rw [hroute, List.getLast?_concat]
  · rw [hroute]
    simp
    exact hperm.length_eq.trans (by simp)
  · rw [hroute]
    cases p with
    | nil => exact absurd rfl hpne
    | cons a as =>
      simp only [List.head?_cons, Option.some.injEq] at hphead
      subst hphead
      rw [List.cons_append, List.drop_succ_cons, List.drop_zero,
        List.dropLast_concat]
      have := List.cons_perm_iff_perm_erase.1 hperm
      exact this.2

theorem closed_tour_route_shape_witness :
    (solveTspDecode (solveTspManager 3 0 none) ⟨fun i => i + 1, 0⟩ 3).1.head? = some 0
    ∧ (solveTspDecode (solveTspManager 3 0 none) ⟨fun i => i + 1, 0⟩ 3).1.getLast? = some 0
    ∧ (solveTspDecode (solveTspManager 3 0 none) ⟨fun i => i + 1, 0⟩ 3).1.length = 3 + 1
    ∧ ((solveTspDecode (solveTspManager 3 0 none) ⟨fun i => i + 1, 0⟩ 3).1.drop 1).dropLast.Perm
        ((List.range 3).erase 0) :=
  closed_tour_route_shape 3 0 3 (by decide) ⟨fun i => i + 1, 0⟩ [0, 1, 2]
    (by decide) (by decide)

/-- C4 (the code slip): for its fixed-end "Tartu → Tallinn" problem,
`tsp-or-tools.py` builds exactly the closed-tour request shape —
`orToolsMainManager` equals the `end_index = None` shape of `solve_tsp` for
every input, while `solve_tsp` with a fixed end builds a genuinely distinct
topology — and on a 3-city instance with start 0 and requested end 2, the
decoded route under the closed-shape contract is `[0, 1, 2, 0]`: its last
element is the start, not the requested end, contradicting the code's own
comment "Force the last node of the route to be the specified end_index"
(the zero-penalty disjunction added at line 65 merely makes the end node
optional). -/
theorem ortools_fixed_end_uses_closed_topology :
    (∀ n s e, orToolsMainManager n s e = solveTspManager n s none)
    ∧ (∀ n s e, solveTspManager n s (some e) ≠ solveTspManager n s none)
    ∧ orToolsMainDisjunction 2 = ([2], 0)
    ∧ (solveTspDecode (orToolsMainManager 3 0 2) ⟨fun i => i + 1, 0⟩ 3).1 = [0, 1, 2, 0]
    ∧ (solveTspDecode (orToolsMainManager 3 0 2) ⟨fun i => i + 1, 0⟩ 3).1.getLast? = some 0 := by
  refine ⟨fun n s e => rfl, fun n s e h => ?_, rfl, rfl, rfl⟩
  exact ManagerCfg.noConfusion h

/-! ## Label resolution (`multi_tsp_solutions.py` `main`, lines 107-116;
`tsp-or-tools.py` `create_data_model`, lines 22-23) -/

/-- Python `list.index`: index of the first occurrence of `t`, or
`ValueError` (`none`) when absent. -/
def listIndex (names : List String) (t : String) : Option Nat :=
  match names with
  | [] => none
  | x :: xs => if x = t then some 0 else (listIndex xs t).map (fun i => i + 1)

/-- The `ValueError` from `list.index` on a missing label, caught and
reported in `multi_tsp_solutions.py` `main` (the spec's `UnknownLabel`). -/
inductive LabelError where
  | UnknownLabel (label : String)
deriving DecidableEq, Repr

/-- The label-resolution prologue of `multi_tsp_solutions.py` `main`
(lines 107-116): resolve the start label, then the end label, returning
early — before any `solve_tsp` call — if either raises.
`tsp-or-tools.py` `create_data_model` performs the same two `list.index`
calls with the `ValueError` propagating uncaught; either way no solve is
attempted. -/
def resolveLabels (names : List String) (startLabel endLabel : String) :
    Except LabelError (Nat × Nat) :=
  match listIndex names startLabel with
  | none => Except.error (LabelError.UnknownLabel startLabel)
  | some s =>
    match listIndex names endLabel with
    | none => Except.error (LabelError.UnknownLabel endLabel)
    | some e => Except.ok (s, e)

theorem listIndex_isSome (names : List String) (t : String) (h : t ∈ names) :
    ∃ i, listIndex names t = some i := by
  induction names with
  | nil => simp at h
  | cons x xs ih =>
    rw [listIndex]
    by_cases hx : x = t
    · exact ⟨0, by rw [if_pos hx]⟩
    · have ht : t ∈ xs := by
        rcases List.mem_cons.1 h with h1 | h1
        · exact absurd h1.symm hx
        · exact h1
      obtain ⟨i, hi⟩ := ih ht
      exact ⟨i + 1, by rw [if_neg hx, hi]; rfl⟩

theorem listIndex_eq_none (names : List String) (t : String) (h : t ∉ names) :
    listIndex names t = none := by
  induction names with
  | nil => rfl
  | cons x xs ih =>
    rw [listIndex]
    have hx : ¬(x = t) := by
      intro hxt
      exact h (by simp [hxt])
    rw [if_neg hx, ih (fun hm => h (List.mem_cons_of_mem x hm))]
    rfl

/-- C8: if the start or end label is absent from the matrix's label list,
resolution fails with `UnknownLabel` naming a label that really is absent,
and no index pair is ever produced (so the solve is not attempted and no
index — `0` or otherwise — is silently substituted). -/
theorem unknown_label_fails (names : List String) (sL eL : String)
    (h : sL ∉ names ∨ eL ∉ names) :
    (∃ lbl, (lbl = sL ∨ lbl = eL) ∧ lbl ∉ names
      ∧ resolveLabels names sL eL = Except.error (LabelError.UnknownLabel lbl))
    ∧ ∀ pr, resolveLabels names sL eL ≠ Except.ok pr := by
  by_cases hs : sL ∈ names
  · have he : eL ∉ names := by tauto
    have hnone := listIndex_eq_none names eL he
    obtain ⟨i, hi⟩ := listIndex_isSome names sL hs
    have hres : resolveLabels names sL eL
        = Except.error (LabelError.UnknownLabel eL) := by
      unfold resolveLabels
      rw [hi, hnone]
    exact ⟨⟨eL, Or.inr rfl, he, hres⟩,
      fun pr hok => by rw [hres] at hok; exact Except.noConfusion hok⟩
  · have hnone := listIndex_eq_none names sL hs
    have hres : resolveLabels names sL eL
        = Except.error (LabelError.UnknownLabel sL) := by
      unfold resolveLabels
      rw [hnone]
    exact ⟨⟨sL, Or.inl rfl, hs, hres⟩,
      fun pr hok => by rw [hres] at hok; exact Except.noConfusion hok⟩

theorem unknown_label_fails_witness :
    (∃ lbl, (lbl = "Tartu" ∨ lbl = "Tallinn") ∧ lbl ∉ ["Tartu", "Parnu"]
      ∧ resolveLabels ["Tartu", "Parnu"] "Tartu" "Tallinn"
          = Except.error (LabelError.UnknownLabel lbl))
    ∧ ∀ pr, resolveLabels ["Tartu", "Parnu"] "Tartu" "Tallinn" ≠ Except.ok pr :=
  unknown_label_fails ["Tartu", "Parnu"] "Tartu" "Tallinn" (by decide)

/-! ## GPX / KML export (`multi_tsp_with_gpx.py` `generate_gpx`, lines
107-150; `multi_tsp_with_kml_hesburger.py` `generate_kml`, lines 111-181)

Both exporters walk the route's city names, look each up in the
`city_coords` dictionary, and on a miss print a warning and `continue`,
contributing nothing to the output; after the loop the assembled text is
written to the output file unconditionally.  Coordinate values only ever
get interpolated into the output text, so they are modelled by their
rendered `(lat, lon)` strings; the coordinate dictionary is a partial map
`String → Option (String × String)`. -/

/-- The `<trkpt>` fragment appended per found city
(`multi_tsp_with_gpx.py` lines 140-143). -/
def gpxTrkpt (city lat lon : String) : String :=
  "      <trkpt lat=\"" ++ lat ++ "\" lon=\"" ++ lon ++ "\">\n        <name>"
    ++ city ++ "</name>\n      </trkpt>\n"

/-- The track-point loop of `generate_gpx` (lines 133-143): cities absent
from `city_coords` are skipped after a printed warning. -/
def gpxTrkpts (route : List String)
    (coords : String → Option (String × String)) : String :=
  match route with
  | [] => ""
  | city :: rest =>
    match coords city with
    | none => gpxTrkpts rest coords
    | some ll => gpxTrkpt city ll.1 ll.2 ++ gpxTrkpts rest coords

/-- The GPX header text of `generate_gpx` (lines 116-125), with the route
label interpolated. -/
def gpxHeader (label : String) : String :=
  "<?xml version=\"1.0\" encoding=\"UTF-8\" standalone=\"yes\"?>\n<gpx version=\"1.1\" creator=\"MyTSPApp\" xmlns=\"http://www.topografix.com/GPX/1/1\">\n  <metadata>\n    <name>"
    ++ label ++ "</name>\n    <author>My TSP Solver</author>\n  </metadata>\n  <trk>\n    <name>"
    ++ label ++ "</name>\n    <trkseg>\n"

/-- The GPX footer text (lines 128-131). -/
def gpxFooter : String := "    </trkseg>\n  </trk>\n</gpx>\n"

/-- The whole of `generate_gpx` (lines 107-148): header, per-city track points, footer;
the resulting text is written to the output file unconditionally. -/
def generate_gpx (route : List String)
    (coords : String → Option (String × String)) (label : String) : String :=
  gpxHeader label ++ gpxTrkpts route coords ++ gpxFooter

/-- The loop of `generate_kml` (lines 134-152) builds, in one pass, the
placemark text and `coords_list` for the `LineString`; a city missing from
`city_coords` is skipped for both.  This is the list of cities found, with
their `(lat, lon)` strings, in route order. -/
def kmlVisited (route : List String)
    (coords : String → Option (String × String)) :
    List (String × String × String) :=
  match route with
  | [] => []
  | city :: rest =>
    match coords city with
    | none => kmlVisited rest coords
    | some ll => (city, ll.1, ll.2) :: kmlVisited rest coords

/-- The `<Placemark>` fragment per found city (lines 144-151); KML puts
`lon,lat,0` inside `<coordinates>`. -/
def kmlPlacemark (city lat lon : String) : String :=
  "\n    <Placemark>\n      <name>" ++ city
    ++ "</name>\n      <Point>\n        <coordinates>" ++ lon ++ "," ++ lat
    ++ ",0</coordinates>\n      </Point>\n    </Placemark>\n"

/-- The `LineString` coordinate text (line 156): `lon,lat,0` per found city,
joined by spaces. -/
def kmlLinestringCoords (pts : List (String × String × String)) : String :=
  String.intercalate " " (pts.map (fun p => p.2.2 ++ "," ++ p.2.1 ++ ",0"))

/-- The path `<Placemark>` with the `LineString` (lines 157-173). -/
def kmlLinestringPlacemark (label : String)
    (pts : List (String × String × String)) : String :=
  "\n    <Placemark>\n      <name>" ++ label
    ++ " Path</name>\n      <Style>\n        <LineStyle>\n          <color>ff0000ff</color>\n          <width>3</width>\n        </LineStyle>\n      </Style>\n      <LineString>\n        <tessellate>1</tessellate>\n        <coordinates>\n          "
    ++ kmlLinestringCoords pts
    ++ "\n        </coordinates>\n      </LineString>\n    </Placemark>\n"

/-- The KML header (lines 123-127) with the label interpolated. -/
def kmlHeader (label : String) : String :=
  "<?xml version=\"1.0\" encoding=\"UTF-8\"?>\n<kml xmlns=\"http://www.opengis.net/kml/2.2\">\n<Document>\n  <name>"
    ++ label ++ "</name>\n"

/-- The KML footer (lines 129-132). -/
def kmlFooter : String := "\n</Document>\n</kml>\n"

/-- The whole of `generate_kml` (lines 111-179): header, placemarks for the found cities,
the connecting `LineString` over the same found cities, footer; written to
the output file unconditionally. -/
def generate_kml (route : List String)
    (coords : String → Option (String × String)) (label : String) : String :=
  kmlHeader label
    ++ String.join ((kmlVisited route coords).map
        (fun p => kmlPlacemark p.1 p.2.1 p.2.2))
    ++ kmlLinestringPlacemark label (kmlVisited route coords)
    ++ kmlFooter

theorem gpxTrkpts_skip (pre post : List String)
    (coords : String → Option (String × String)) (city : String)
    (h : coords city = none) :
    gpxTrkpts (pre ++ city :: post) coords = gpxTrkpts (pre ++ post) coords := by
  induction pre with
  | nil =>
    rw [List.nil_append, List.nil_append, gpxTrkpts, h]
  | cons x xs ih =>
    rw [List.cons_append, List.cons_append, gpxTrkpts]
    conv_rhs => rw [gpxTrkpts]
    cases hx : coords x with
    | none => exact ih
    | some ll => rw [ih]

theorem kmlVisited_skip (pre post : List String)
    (coords : String → Option (String × String)) (city : String)
    (h : coords city = none) :
    kmlVisited (pre ++ city :: post) coords = kmlVisited (pre ++ post) coords := by
  induction pre with
  | nil =>
    rw [List.nil_append, List.nil_append, kmlVisited, h]
  | cons x xs ih =>
    rw [List.cons_append, List.cons_append, kmlVisited]
    conv_rhs => rw [kmlVisited]
    cases hx : coords x with
    | none => exact ih
    | some ll => rw [ih]

/-- C9: a route city with no entry in the city-coordinate lookup is silently
omitted from the emitted GPX track points and from the KML placemarks and
path geometry — the generated text is identical to that of the route without
the missing city — and both generators still produce the full
header/body/footer document (they are total; export never fails on a missing
coordinate, the source merely prints a warning and continues). -/
theorem export_skips_missing_city (pre post : List String)
    (coords : String → Option (String × String)) (city label : String)
    (h : coords city = none) :
    generate_gpx (pre ++ city :: post) coords label
        = generate_gpx (pre ++ post) coords label
    ∧ generate_kml (pre ++ city :: post) coords label
        = generate_kml (pre ++ post) coords label
    ∧ generate_gpx (pre ++ city :: post) coords label
        = gpxHeader label ++ gpxTrkpts (pre ++ post) coords ++ gpxFooter
    ∧ generate_kml (pre ++ city :: post) coords label
        = kmlHeader label
            ++ String.join ((kmlVisited (pre ++ post) coords).map
                (fun p => kmlPlacemark p.1 p.2.1 p.2.2))
            ++ kmlLinestringPlacemark label (kmlVisited (pre ++ post) coords)
            ++ kmlFooter := by
  have hg := gpxTrkpts_skip pre post coords city h
  have hk := kmlVisited_skip pre post coords city h
  refine ⟨?_, ?_, ?_, ?_⟩ <;> simp only [generate_gpx, generate_kml, hg, hk]

/-- Lookup stub: coordinates for `"A"` and `"B"` only. -/
def coordsStub : String → Option (String × String) :=
  fun c => if c = "A" then some ("58.1", "26.7")
           else if c = "B" then some ("59.4", "24.7") else none

theorem export_skips_missing_city_witness :
    generate_gpx (["A"] ++ "X" :: ["B"]) coordsStub "Route"
        = generate_gpx (["A"] ++ ["B"]) coordsStub "Route"
    ∧ generate_kml (["A"] ++ "X" :: ["B"]) coordsStub "Route"
        = generate_kml (["A"] ++ ["B"]) coordsStub "Route"
    ∧ generate_gpx (["A"] ++ "X" :: ["B"]) coordsStub "Route"
        = gpxHeader "Route" ++ gpxTrkpts (["A"] ++ ["B"]) coordsStub ++ gpxFooter
    ∧ generate_kml (["A"] ++ "X" :: ["B"]) coordsStub "Route"
        = kmlHeader "Route"
            ++ String.join ((kmlVisited (["A"] ++ ["B"]) coordsStub).map
                (fun p => kmlPlacemark p.1 p.2.1 p.2.2))
            ++ kmlLinestringPlacemark "Route" (kmlVisited (["A"] ++ ["B"]) coordsStub)
            ++ kmlFooter :=
  export_skips_missing_city ["A"] ["B"] coordsStub "X" "Route" rfl

/-! ## DMS parsing (`scripts/convert_coordinates.py`, `parse_dms`, lines 7-28)

`parse_dms` replaces commas with dots, strips surrounding whitespace, and
runs `re.search` with the pattern `(\d+)°(\d+)'([\d.]+)\"`.  On no match it
raises `ValueError`; on a match it converts the three captured groups with
Python `float` (which itself raises `ValueError` when the seconds group —
an arbitrary nonempty mix of digits and dots — has no digit or more than
one dot) and returns `deg + mins/60 + secs/3600`.  Strings are embedded as
`List Char`; `float` values as `ℚ`.

In this pattern every quantified atom (`\d+` before `°` and `'`, `[\d.]+`
before `\"`) is followed by a literal outside its character class, so the
regex engine's greedy matching with backtracking coincides with maximal
munch, and `re.search`'s leftmost-match rule is the first position at which
the anchored match succeeds. -/

/-- The call `dms_str.replace(',', '.')` (`convert_coordinates.py:15`). -/
def pyReplaceCommaDot (s : List Char) : List Char :=
  s.map (fun c => if c = ',' then '.' else c)

/-- The call `dms_str.strip()` (`convert_coordinates.py:18`). -/
def pyStrip (s : List Char) : List Char :=
  ((s.dropWhile Char.isWhitespace).reverse.dropWhile Char.isWhitespace).reverse

/-- Greedy match of one `X+` regex atom: the maximal nonempty run of
characters satisfying `p`, with the rest of the input. -/
def munch (p : Char → Bool) (s : List Char) : Option (List Char × List Char) :=
  match s.takeWhile p with
  | [] => none
  | g => some (g, s.dropWhile p)

/-- Match one literal character. -/
def expectChar (c : Char) (s : List Char) : Option (List Char) :=
  match s with
  | [] => none
  | x :: xs => if x = c then some xs else none

/-- The `[\d.]` character class of the seconds group. -/
def isDigitDot (c : Char) : Bool := c.isDigit || c == '.'

/-- The regex `(\d+)°(\d+)'([\d.]+)\"` anchored at the head of `s`,
returning the three captured groups. -/
def dmsMatchAt (s : List Char) : Option (List Char × List Char × List Char) :=
  match munch Char.isDigit s with
  | none => none
  | some (d, r1) =>
    match expectChar '°' r1 with
    | none => none
    | some r2 =>
      match munch Char.isDigit r2 with
      | none => none
      | some (m, r3) =>
        match expectChar '\'' r3 with
        | none => none
        | some r4 =>
          match munch isDigitDot r4 with
          | none => none
          | some (sec, r5) =>
            match expectChar '\"' r5 with
            | none => none
            | some _ => some (d, m, sec)

/-- Semantics of `re.search`: the match at the leftmost position where the anchored
pattern succeeds. -/
def dmsSearch (s : List Char) : Option (List Char × List Char × List Char) :=
  match s with
  | [] => none
  | c :: rest =>
    match dmsMatchAt (c :: rest) with
    | some g => some g
    | none => dmsSearch rest

/-- Decimal value of a digit string. -/
def digitsToNat (ds : List Char) : Nat :=
  ds.foldl (fun acc c => acc * 10 + (c.toNat - '0'.toNat)) 0

/-- Python `float` on a string made of digits and dots: it succeeds exactly
when the string has at least one digit and at most one dot (accepting forms
like `1.` and `.5`, rejecting `.` , `..` and `1.2.3`), with the usual
decimal value. -/
def pyFloatDigitsDots (s : List Char) : Option ℚ :=
  if s.any Char.isDigit = true ∧ s.count '.' ≤ 1 then
    some ((digitsToNat (s.takeWhile (fun c => !(c == '.'))) : ℚ)
      + (digitsToNat ((s.dropWhile (fun c => !(c == '.'))).drop 1) : ℚ)
          / 10 ^ ((s.dropWhile (fun c => !(c == '.'))).drop 1).length)
  else none

/-- The function `parse_dms` (`convert_coordinates.py` lines 7-28): normalise, search the
regex, `float` the groups (the degree and minute groups are all digits, so
their conversion never fails), and combine; `none` is the `ValueError`
path — either "Invalid DMS format" (no regex match) or `float`'s own
`ValueError` on a malformed seconds group. -/
def parse_dms (s : List Char) : Option ℚ :=
  match dmsSearch (pyStrip (pyReplaceCommaDot s)) with
  | none => none
  | some (d, m, sec) =>
    match pyFloatDigitsDots sec with
    | none => none
    | some secV =>
      some ((digitsToNat d : ℚ) + (digitsToNat m : ℚ) / 60 + secV / 3600)

/-- The stricter seconds shape `digits(.digits)?` of the documented format
`digits°digits'digits(.digits)?\"` — anchored check at the head of `s`.
Each greedy piece is forced (digits before `°`, `'`, `.` or `\"`; fraction
digits before `\"`), so this deterministic checker decides existence of an
anchored match of that pattern. -/
def specDmsPatternAt (s : List Char) : Bool :=
  match munch Char.isDigit s with
  | none => false
  | some (_, r1) =>
    match expectChar '°' r1 with
    | none => false
    | some r2 =>
      match munch Char.isDigit r2 with
      | none => false
      | some (_, r3) =>
        match expectChar '\'' r3 with
        | none => false
        | some r4 =>
          match munch Char.isDigit r4 with
          | none => false
          | some (_, r5) =>
            match r5 with
            | '\"' :: _ => true
            | '.' :: r6 =>
              match munch Char.isDigit r6 with
              | none => false
              | some (_, r7) =>
                match r7 with
                | '\"' :: _ => true
                | _ => false
            | _ => false

/-- Whether some substring of `s` matches the documented pattern
`digits°digits'digits(.digits)?\"`. -/
def specDmsContains (s : List Char) : Bool :=
  match s with
  | [] => false
  | c :: rest => specDmsPatternAt (c :: rest) || specDmsContains rest

/-- The seven characters of the input string `5°3'1."`. -/
def dmsCexInput : List Char := ['5', '°', '3', '\'', '1', '.', '\"']

theorem pyFloat_cex : pyFloatDigitsDots ['1', '.'] = some 1 := by
  have ht : (['1', '.'].takeWhile (fun c => !(c == '.'))) = ['1'] := by decide
  have hd : ((['1', '.'].dropWhile (fun c => !(c == '.'))).drop 1) = ([] : List Char) := by
    decide
  unfold pyFloatDigitsDots
  rw [if_pos (by decide), ht, hd]
  have h1 : digitsToNat ['1'] = 1 := by decide
  have h0 : digitsToNat [] = 0 := rfl
  rw [h1, h0]
  norm_num

/-- C10 counterexample: the input `5°3'1."` contains no substring of the
described form `digits°digits'digits(.digits)?"` (its seconds text `1.` has
a trailing dot), yet `parse_dms` does not raise `ValueError`: the code's
regex seconds group is `[\d.]+`, which captures `1.`, and Python
`float("1.")` succeeds with `1.0`, so the call returns
`5 + 3/60 + 1/3600`. -/
theorem parse_dms_accepts_undocumented_seconds :
    specDmsContains (pyReplaceCommaDot dmsCexInput) = false
    ∧ parse_dms dmsCexInput = some (5 + 3 / 60 + 1 / 3600 : ℚ) := by
  constructor
  · decide
  · have hsr : dmsSearch (pyStrip (pyReplaceCommaDot dmsCexInput))
        = some (['5'], ['3'], ['1', '.']) := by decide
    simp only [parse_dms, hsr, pyFloat_cex]
    have h5 : digitsToNat ['5'] = 5 := by decide
    have h3 : digitsToNat ['3'] = 3 := by decide
    rw [h5, h3]
    norm_num

theorem pyFloatDigitsDots_nonneg (s : List Char) (q : ℚ)
    (h : pyFloatDigitsDots s = some q) : 0 ≤ q := by
  unfold pyFloatDigitsDots at h
  by_cases hc : s.any Char.isDigit = true ∧ s.count '.' ≤ 1
  · rw [if_pos hc] at h
    have := Option.some.inj h
    rw [← this]
    positivity
  · rw [if_neg hc] at h
    exact absurd h (by simp)

/-- C10 amended: `parse_dms` raises `ValueError` exactly when the code's
regex `(\d+)°(\d+)'([\d.]+)\"` finds no match in the comma-normalised,
stripped input, or when its seconds group (a maximal nonempty run of digits
and dots, e.g. also `1.` or `.5`) has no digit or more than one dot (Python
`float` fails); otherwise it returns `deg + mins/60 + secs/3600` for the
leftmost match's groups, which is always non-negative — no sign or
hemisphere is ever parsed. -/
theorem parse_dms_characterization (s : List Char) :
    (parse_dms s = none
      ∧ (dmsSearch (pyStrip (pyReplaceCommaDot s)) = none
        ∨ ∃ g, dmsSearch (pyStrip (pyReplaceCommaDot s)) = some g
            ∧ pyFloatDigitsDots g.2.2 = none))
    ∨ (∃ v, parse_dms s = some v ∧ 0 ≤ v
        ∧ ∃ g, dmsSearch (pyStrip (pyReplaceCommaDot s)) = some g
            ∧ ∃ q, pyFloatDigitsDots g.2.2 = some q ∧ 0 ≤ q
            ∧ v = (digitsToNat g.1 : ℚ) + (digitsToNat g.2.1 : ℚ) / 60
                    + q / 3600) := by
  cases hsr : dmsSearch (pyStrip (pyReplaceCommaDot s)) with
  | none =>
    left
    constructor
    · simp only [parse_dms, hsr]
    · exact Or.inl rfl
  | some g =>
    obtain ⟨d, mg, sec⟩ := g
    cases hf : pyFloatDigitsDots sec with
    | none =>
      left
      constructor
      · simp only [parse_dms, hsr, hf]
      · exact Or.inr ⟨(d, mg, sec), rfl, hf⟩
    | some q =>
      right
      have hq : 0 ≤ q := pyFloatDigitsDots_nonneg sec q hf
      refine ⟨(digitsToNat d : ℚ) + (digitsToNat mg : ℚ) / 60 + q / 3600,
        ?_, ?_, (d, mg, sec), rfl, q, hf, hq, rfl⟩
      · simp only [parse_dms, hsr, hf]
      · positivity

end EstoniaBikeRoute
